import Mathlib

/-!
Verification of the policy-enforced agent-routing core of the Blue Team
multi-agent orchestration platform (`src/blue_team_ai`).

The Python modules under `blue_team_ai/{security,core,utils,agents}` are
shallowly embedded below: pure functions become Lean functions, mutable
service state (HITL request store, anomaly deque, expense ledger) becomes
explicit state passing, raised exceptions become `Except` errors, and
`datetime.utcnow()` becomes an explicit integer clock parameter.
Python dictionaries are embedded as insertion-ordered association lists
with string keys; dynamically-typed dict values are embedded by the
inductive `Val` covering the value shapes the platform passes around
(strings, numbers, booleans, None, flat lists).
-/

namespace BlueTeam

/-! ## Association lists as Python dicts (insertion ordered, unique keys) -/

/-- First-match lookup, the embedding of `d.get(k)` / `d[k]`. -/
def alGet {α : Type} (k : String) : List (String × α) → Option α
  | [] => none
  | (k', v) :: rest => if k' = k then some v else alGet k rest

/-- Dict assignment `d[k] = v`: replaces in place when the key exists
(Python dicts keep the original insertion position), appends otherwise. -/
def alSet {α : Type} (k : String) (v : α) : List (String × α) → List (String × α)
  | [] => [(k, v)]
  | (k', v') :: rest => if k' = k then (k, v) :: rest else (k', v') :: alSet k v rest

/-- `{k: v for k, v in d.items() if k != bad}`. -/
def alDrop {α : Type} (bad : String) (d : List (String × α)) : List (String × α) :=
  d.filter (fun kv => kv.1 ≠ bad)

/-- Build a dict literal `{**base, k1: v1, ...}` by sequential assignment. -/
def alSetMany {α : Type} (base : List (String × α)) (kvs : List (String × α)) :
    List (String × α) :=
  kvs.foldl (fun d kv => alSet kv.1 kv.2 d) base

/-! ## String ordering and containment (Python semantics) -/

/-- Python `s <= t` on strings: lexicographic on Unicode code points. -/
def lexLe : List Char → List Char → Bool
  | [], _ => true
  | _ :: _, [] => false
  | a :: as, b :: bs =>
    if a.toNat < b.toNat then true
    else if b.toNat < a.toNat then false
    else lexLe as bs

def strLe (s t : String) : Bool := lexLe s.data t.data

/-- Python substring containment `pat in s`. -/
def containsSub (hay pat : List Char) : Bool :=
  match hay with
  | [] => pat.isEmpty
  | _ :: t => pat.isPrefixOf hay || containsSub t pat

def strContains (s pat : String) : Bool := containsSub s.data pat.data

/-- Python `str.lower()` (character-wise lowercasing). -/
def strLower (s : String) : String := String.mk (s.data.map Char.toLower)

/-- Stable insertion into a key-sorted list, used to embed Python `sorted`. -/
def insertByKey {α : Type} (p : String × α) : List (String × α) → List (String × α)
  | [] => [p]
  | q :: rest => if strLe q.1 p.1 then q :: insertByKey p rest else p :: q :: rest

/-- `sorted(d.items())`: Python sorts the item tuples; dict keys are unique so
the comparison is decided by the (string) keys. -/
def sortByKey {α : Type} : List (String × α) → List (String × α)
  | [] => []
  | p :: rest => insertByKey p (sortByKey rest)

/-! ## SHA-256 over byte lists (FIPS 180-4), as used by `hashlib.sha256` -/

def w32 : Nat := 4294967296

def wadd (a b : Nat) : Nat := (a + b) % w32

def wxor (a b : Nat) : Nat := a ^^^ b

/-- Rotate a 32-bit word right by `n` bit positions. -/
def rotr (n x : Nat) : Nat := ((x >>> n) ||| (x <<< (32 - n))) % w32

def shaCh (e f g : Nat) : Nat := wxor (e &&& f) ((4294967295 ^^^ e) &&& g)

def shaMaj (a b c : Nat) : Nat := wxor (wxor (a &&& b) (a &&& c)) (b &&& c)

def bigS0 (x : Nat) : Nat := wxor (wxor (rotr 2 x) (rotr 13 x)) (rotr 22 x)

def bigS1 (x : Nat) : Nat := wxor (wxor (rotr 6 x) (rotr 11 x)) (rotr 25 x)

def smallS0 (x : Nat) : Nat := wxor (wxor (rotr 7 x) (rotr 18 x)) (x >>> 3)

def smallS1 (x : Nat) : Nat := wxor (wxor (rotr 17 x) (rotr 19 x)) (x >>> 10)

def shaK : List Nat :=
  [1116352408, 1899447441, 3049323471, 3921009573, 961987163, 1508970993,
   2453635748, 2870763221, 3624381080, 310598401, 607225278, 1426881987,
   1925078388, 2162078206, 2614888103, 3248222580, 3835390401, 4022224774,
   264347078, 604807628, 770255983, 1249150122, 1555081692, 1996064986,
   2554220882, 2821834349, 2952996808, 3210313671, 3336571891, 3584528711,
   113926993, 338241895, 666307205, 773529912, 1294757372, 1396182291,
   1695183700, 1986661051, 2177026350, 2456956037, 2730485921, 2820302411,
   3259730800, 3345764771, 3516065817, 3600352804, 4094571909, 275423344,
   430227734, 506948616, 659060556, 883997877, 958139571, 1322822218,
   1537002063, 1747873779, 1955562222, 2024104815, 2227730452, 2361852424,
   2428436474, 2756734187, 3204031479, 3329325298]

def shaH0 : List Nat :=
  [1779033703, 3144134277, 1013904242, 2773480762,
   1359893119, 2600822924, 528734635, 1541459225]

/-- `count` bytes of `n`, big-endian. -/
def beBytes : Nat → Nat → List Nat
  | 0, _ => []
  | k + 1, n => beBytes k (n / 256) ++ [n % 256]

/-- Group bytes into 32-bit big-endian words. -/
def toWordsBE : List Nat → List Nat
  | b0 :: b1 :: b2 :: b3 :: rest =>
    (b0 * 16777216 + b1 * 65536 + b2 * 256 + b3) :: toWordsBE rest
  | _ => []

/-- SHA-256 padding: append 0x80, zero bytes to 56 mod 64, 8-byte bit length. -/
def shaPad (msg : List Nat) : List Nat :=
  let L := msg.length
  let k := (119 - (L % 64)) % 64
  msg ++ [0x80] ++ List.replicate k 0 ++ beBytes 8 (8 * L)

/-- Split into 64-byte blocks.  Fuel-based structural recursion (each step
consumes at least one byte, so `fuel = length` is enough) keeps the
definition kernel-computable. -/
def chunks64Aux : Nat → List Nat → List (List Nat)
  | 0, _ => []
  | _, [] => []
  | fuel + 1, b :: rest => (b :: rest).take 64 :: chunks64Aux fuel ((b :: rest).drop 64)

def chunks64 (l : List Nat) : List (List Nat) := chunks64Aux l.length l

/-- Extend the 16 message words to the 64-entry schedule. -/
def shaSchedule (w16 : List Nat) : Array Nat :=
  (List.range 48).foldl
    (fun w _ =>
      w.push (wadd (wadd (smallS1 (w.get! (w.size - 2))) (w.get! (w.size - 7)))
                   (wadd (smallS0 (w.get! (w.size - 15))) (w.get! (w.size - 16)))))
    w16.toArray

/-- One round of the compression function on the 8-word working state. -/
def shaRound (s : List Nat) (kw : Nat × Nat) : List Nat :=
  match s with
  | [a, b, c, d, e, f, g, h] =>
    let t1 := wadd h (wadd (bigS1 e) (wadd (shaCh e f g) (wadd kw.1 kw.2)))
    let t2 := wadd (bigS0 a) (shaMaj a b c)
    [wadd t1 t2, a, b, c, wadd d t1, e, f, g]
  | other => other

/-- Process one 64-byte chunk, updating the 8-word hash state. -/
def shaChunk (h : List Nat) (chunk : List Nat) : List Nat :=
  let w := shaSchedule (toWordsBE chunk)
  let s := (shaK.zip w.toList).foldl shaRound h
  (h.zip s).map (fun p => wadd p.1 p.2)

/-- SHA-256 of a byte list, as the 8-word hash state. -/
def sha256Words (msg : List Nat) : List Nat :=
  (chunks64 (shaPad msg)).foldl shaChunk shaH0

/-- SHA-256 digest as 32 bytes. -/
def sha256Bytes (msg : List Nat) : List Nat :=
  (sha256Words msg).flatMap (beBytes 4)

def hexDigit (d : Nat) : Char :=
  if d < 10 then Char.ofNat (48 + d) else Char.ofNat (87 + d)

/-- `width` lowercase hex digits of `n`, most significant first. -/
def hexN : Nat → Nat → List Char
  | 0, _ => []
  | k + 1, n => hexN k (n / 16) ++ [hexDigit (n % 16)]

/-- `hashlib.sha256(msg).hexdigest()`. -/
def sha256Hex (msg : List Nat) : String :=
  String.mk ((sha256Words msg).flatMap (hexN 8))

/-- UTF-8 encoding of one code point, the embedding of `str.encode("utf-8")`. -/
def utf8Char (c : Char) : List Nat :=
  let n := c.toNat
  if n < 128 then [n]
  else if n < 2048 then [192 ||| (n >>> 6), 128 ||| (n &&& 63)]
  else if n < 65536 then
    [224 ||| (n >>> 12), 128 ||| ((n >>> 6) &&& 63), 128 ||| (n &&& 63)]
  else
    [240 ||| (n >>> 18), 128 ||| ((n >>> 12) &&& 63),
     128 ||| ((n >>> 6) &&& 63), 128 ||| (n &&& 63)]

def utf8 (s : String) : List Nat := s.data.flatMap utf8Char

/-- `hmac.new(key, msg, sha256).hexdigest()` (RFC 2104, block size 64). -/
def hmacSha256Hex (key msg : List Nat) : String :=
  let k0 := if key.length > 64 then sha256Bytes key else key
  let k1 := k0 ++ List.replicate (64 - k0.length) 0
  let ipad := k1.map (fun b => b ^^^ 0x36)
  let opad := k1.map (fun b => b ^^^ 0x5c)
  sha256Hex (opad ++ sha256Bytes (ipad ++ msg))

/-! ## Python values and dicts

Dict values in this platform are strings, numbers (embedded as `ℚ`, the
exact-arithmetic model of Python int/float), booleans, `None`, flat lists
(e.g. document `tags`), or flat dicts (e.g. `report.__dict__` nested in a
review response).  `PyDict` is an insertion-ordered association list. -/

inductive Prim where
  | str (s : String)
  | num (q : ℚ)
  | bool (b : Bool)
  | pynone
deriving DecidableEq

inductive Val where
  | prim (p : Prim)
  | list (xs : List Prim)
  | dict (xs : List (String × Prim))
deriving DecidableEq

def Val.s (x : String) : Val := .prim (.str x)

def Val.n (q : ℚ) : Val := .prim (.num q)

abbrev PyDict : Type := List (String × Val)

/-- `d.get(k)`. -/
def pyGet (d : PyDict) (k : String) : Option Val := alGet k d

/-- `d.get(k, default)`. -/
def pyGetD (d : PyDict) (k : String) (dflt : Val) : Val := (pyGet d k).getD dflt

/-- Extract a string value, with a default for a missing key.  Call sites
embed Python code whose value at that key is a string whenever present. -/
def pyGetStrD (d : PyDict) (k : String) (dflt : String) : String :=
  match pyGet d k with
  | some (.prim (.str s)) => s
  | _ => dflt

/-! ## Python `repr`, the canonical serialization used before signing

`SignatureService.wrap_message` serializes a payload as
`str(sorted(payload.items()))`.  The embedding below reproduces CPython
`repr` for the value shapes the platform uses: strings are quoted with
single quotes (double quotes when the string contains a single quote and
no double quote) with backslash/quote/newline/carriage-return/tab escapes;
floats print their decimal expansion; `True`/`False`/`None` print their
keywords; lists, tuples and dicts print their elements recursively. -/

def bsChar : Char := Char.ofNat 92

def sqChar : Char := Char.ofNat 39

def dqChar : Char := Char.ofNat 34

def pyEscapeChar (q : Char) (c : Char) : List Char :=
  if c = bsChar then [bsChar, bsChar]
  else if c = q then [bsChar, q]
  else if c.toNat = 10 then [bsChar, Char.ofNat 110]
  else if c.toNat = 13 then [bsChar, Char.ofNat 114]
  else if c.toNat = 9 then [bsChar, Char.ofNat 116]
  else [c]

def pyReprString (s : String) : String :=
  let q := if s.data.contains sqChar ∧ ¬ s.data.contains dqChar then dqChar else sqChar
  String.mk (q :: s.data.flatMap (pyEscapeChar q) ++ [q])

/-- Decimal digits of `r / den` for `0 ≤ r < den`, by long division with
fuel (floats have a finite decimal expansion, shorter than the fuel). -/
def fracDigits : Nat → Nat → Nat → List Char
  | 0, _, _ => []
  | fuel + 1, r, den =>
    if r = 0 then []
    else Char.ofNat (48 + r * 10 / den) :: fracDigits fuel (r * 10 % den) den

/-- `repr` of a Python float (e.g. `repr(50.0) = "50.0"`), computed from
the numerator and denominator of the exact rational. -/
def pyReprNum (q : ℚ) : String :=
  let sign := if q.num < 0 then "-" else ""
  let na := q.num.natAbs
  let frac := fracDigits 30 (na % q.den) q.den
  sign ++ toString (na / q.den) ++ "." ++ (if frac.isEmpty then "0" else String.mk frac)

def pyReprPrim : Prim → String
  | .str s => pyReprString s
  | .num q => pyReprNum q
  | .bool b => cond b "True" "False"
  | .pynone => "None"

def joinComma (xs : List String) : String := String.intercalate ", " xs

def pyReprVal : Val → String
  | .prim p => pyReprPrim p
  | .list xs => "[" ++ joinComma (xs.map pyReprPrim) ++ "]"
  | .dict xs =>
    "\x7b" ++ joinComma (xs.map (fun kv => pyReprString kv.1 ++ ": " ++ pyReprPrim kv.2)) ++ "\x7d"

/-- `str(d)` for a dict. -/
def pyReprDict (d : PyDict) : String :=
  "\x7b" ++ joinComma (d.map (fun kv => pyReprString kv.1 ++ ": " ++ pyReprVal kv.2)) ++ "\x7d"

/-- `str(sorted(payload.items()))`: the item list sorted by key (dict keys
are unique, so the tuple comparison is decided by the keys), printed as a
list of 2-tuples. -/
def serializePayload (p : PyDict) : String :=
  "[" ++ joinComma ((sortByKey p).map
    (fun kv => "(" ++ pyReprString kv.1 ++ ", " ++ pyReprVal kv.2 ++ ")")) ++ "]"

/-! ## SignatureService (`security/signing.py`)

`settings.security.hmac_shared_secret` defaults to
`"insecure-hmac-change-me"` (`config.py`).  `secrets.compare_digest` on the
two hex strings is constant-time equality, embedded as string equality. -/

def hmacSharedSecret : String := "insecure-hmac-change-me"

/-- `SignatureService.sign`. -/
def SignatureService.sign (message : String) : String :=
  hmacSha256Hex (utf8 hmacSharedSecret) (utf8 message)

/-- `SignatureService.verify`. -/
def SignatureService.verify (message signature : String) : Bool :=
  SignatureService.sign message == signature

structure SignedMessage where
  payload : PyDict
  signature : String
deriving DecidableEq

/-- `SignatureService.wrap_message`. -/
def SignatureService.wrapMessage (payload : PyDict) : SignedMessage :=
  ⟨payload, SignatureService.sign (serializePayload payload)⟩

inductive SigError where
  | invalidSignature
deriving DecidableEq

/-- `SignatureService.unwrap_message`; `raise ValueError("Invalid message
signature")` becomes the `invalidSignature` error. -/
def SignatureService.unwrapMessage (message : SignedMessage) : Except SigError PyDict :=
  if SignatureService.verify (serializePayload message.payload) message.signature then
    .ok message.payload
  else
    .error .invalidSignature

theorem unwrap_wrap (p : PyDict) :
    SignatureService.unwrapMessage (SignatureService.wrapMessage p) = .ok p := by
  simp [SignatureService.unwrapMessage, SignatureService.wrapMessage, SignatureService.verify]

/-! ## RBACService (`security/rbac.py`) -/

structure RoleDefinition where
  name : String
  permissions : List String
deriving DecidableEq

/-- The static role table built in `RBACService.__init__`. -/
def rbacRoles : List (String × RoleDefinition) :=
  [("admin", ⟨"admin",
     ["review", "issue_reimbursement", "update_bank_account", "send", "upload",
      "retrieve", "search", "list", "filter"]⟩),
   ("employee", ⟨"employee",
     ["submit", "send", "upload", "retrieve", "search", "list", "filter"]⟩),
   ("auditor", ⟨"auditor", ["fetch_audit_log"]⟩)]

/-- `RBACService.check_permission`. -/
def RBACService.checkPermission (role permission : String) : Bool :=
  match alGet role rbacRoles with
  | none => false
  | some roleDef => roleDef.permissions.contains permission

/-! ## HITLService (`security/hitl.py`) -/

structure ApprovalRequest where
  requestId : String
  toolName : String
  requestedBy : String
  rationale : String
  createdAt : Int
  approved : Option Bool := none
  approver : Option String := none
deriving DecidableEq

abbrev HitlState := List (String × ApprovalRequest)

inductive HitlError where
  | notFound
deriving DecidableEq

/-- `HITLService.create_request` (`datetime.utcnow()` is the `now` input). -/
def HITLService.createRequest (σ : HitlState)
    (requestId toolName requestedBy rationale : String) (now : Int) : HitlState :=
  alSet requestId ⟨requestId, toolName, requestedBy, rationale, now, none, none⟩ σ

/-- `HITLService.approve`; `raise ValueError("Approval request not found")`
becomes the `notFound` error. -/
def HITLService.approve (σ : HitlState) (requestId approver : String) :
    Except HitlError Unit × HitlState :=
  match alGet requestId σ with
  | none => (.error .notFound, σ)
  | some req =>
    (.ok (), alSet requestId { req with approved := some true, approver := some approver } σ)

/-- `HITLService.deny`. -/
def HITLService.deny (σ : HitlState) (requestId approver : String) :
    Except HitlError Unit × HitlState :=
  match alGet requestId σ with
  | none => (.error .notFound, σ)
  | some req =>
    (.ok (), alSet requestId { req with approved := some false, approver := some approver } σ)

/-- `HITLService.status`. -/
def HITLService.status (σ : HitlState) (requestId : String) : Option ApprovalRequest :=
  alGet requestId σ

/-! ## PolicyEnforcer (`security/policies.py`) -/

structure ToolPayload where
  input : String
  rationale : String
deriving DecidableEq

/-- `ToolPayload(**payload)`: pydantic shape validation requiring string
`input` and `rationale` fields, with the 5000-character cap on `input`. -/
def parseToolPayload (p : PyDict) : Option ToolPayload :=
  match pyGet p "input", pyGet p "rationale" with
  | some (.prim (.str i)), some (.prim (.str r)) =>
    if i.length > 5000 then none else some ⟨i, r⟩
  | _, _ => none

structure PolicyRule where
  role : String
  tool : String
  hitlRequired : Bool
deriving DecidableEq

/-- The static HITL-sensitive rule list from `PolicyEnforcer.__init__`. -/
def policyRules : List PolicyRule :=
  [⟨"admin", "issue_reimbursement", true⟩, ⟨"admin", "update_bank_account", true⟩]

inductive PolicyError where
  | validationError
  | permissionError (msg : String)
deriving DecidableEq

def hitlMessage : String := "Human-in-the-loop approval required"

/-- `PolicyEnforcer._enforce_hitl`: the first matching rule creates an
approval request and raises `PermissionError`. -/
def PolicyEnforcer.enforceHitl (σ : HitlState) (toolName role : String)
    (payload : PyDict) (now : Int) : Except PolicyError Unit × HitlState :=
  match policyRules.find? (fun r => r.tool == toolName && r.role == role && r.hitlRequired) with
  | none => (.ok (), σ)
  | some _ =>
    let requestId := toolName ++ ":" ++ (pyGetStrD payload "input" "").take 20
    (.error (.permissionError hitlMessage),
     HITLService.createRequest σ requestId toolName role (pyGetStrD payload "rationale" "") now)

/-- `PolicyEnforcer.validate`: shape validation, then RBAC, then HITL. -/
def PolicyEnforcer.validate (σ : HitlState) (toolName role : String)
    (payload : PyDict) (now : Int) : Except PolicyError Unit × HitlState :=
  match parseToolPayload payload with
  | none => (.error .validationError, σ)
  | some _ =>
    if RBACService.checkPermission role toolName then
      PolicyEnforcer.enforceHitl σ toolName role payload now
    else
      (.error (.permissionError ("Role " ++ role ++ " not authorized for " ++ toolName)), σ)

/-! ## AnomalyDetector (`utils/anomaly.py`) -/

structure ActionEvent where
  timestamp : Int
  toolName : String
  role : String
  sessionId : String
deriving DecidableEq

structure AnomalyDetector where
  window : Int := 300
  threshold : Nat := 10
  events : List ActionEvent := []
deriving DecidableEq

/-- The `_prune` while-loop: pop from the front while older than the cutoff. -/
def pruneFront (cutoff : Int) : List ActionEvent → List ActionEvent
  | [] => []
  | e :: rest => if e.timestamp < cutoff then pruneFront cutoff rest else e :: rest

/-- `AnomalyDetector.record_event` (both `utcnow()` reads are the `now`
input); the returned flag is whether the security-severity anomaly signal
was emitted by `_check_anomaly`. -/
def AnomalyDetector.recordEvent (d : AnomalyDetector) (now : Int)
    (toolName role sessionId : String) : AnomalyDetector × Bool :=
  let appended := d.events ++ [⟨now, toolName, role, sessionId⟩]
  let pruned := pruneFront (now - d.window) appended
  let count := pruned.countP (fun e => e.toolName == toolName && e.role == role)
  ({ d with events := pruned }, decide (d.threshold < count))

/-- Iterated `record_event` that keeps only the final state; each call
carries its own timestamp and session id. -/
def recordMany (tool role : String) : AnomalyDetector → List (Int × String) → AnomalyDetector
  | d, [] => d
  | d, c :: rest => recordMany tool role (d.recordEvent c.1 tool role c.2).1 rest

/-- Iterated `record_event` that also reports the signal of the last call. -/
def recordTrace (tool role : String) :
    AnomalyDetector → List (Int × String) → AnomalyDetector × Bool
  | d, [] => (d, false)
  | d, c :: rest =>
    match rest with
    | [] => d.recordEvent c.1 tool role c.2
    | _ :: _ => recordTrace tool role (d.recordEvent c.1 tool role c.2).1 rest

/-! ## TaskPlanner (`core/planner.py`) -/

structure PlannedStep where
  agent : String
  action : String
  params : PyDict
  rationale : String
deriving DecidableEq

/-- Python `float(value)` on the value shapes that can appear in request
data; strings parse as (optionally signed) decimal literals. -/
def parseDigitsAux : List Char → Nat → Option Nat
  | [], acc => some acc
  | c :: rest, acc =>
    if c.isDigit then parseDigitsAux rest (acc * 10 + (c.toNat - 48)) else none

def parseDecimal (s : String) : Option ℚ :=
  let (sign, cs) : ℚ × List Char :=
    match s.data with
    | c :: rest => if c = '-' then (-1, rest) else if c = '+' then (1, rest) else (1, s.data)
    | [] => (1, [])
  if cs.isEmpty then none
  else
    let (ipart, rest) := cs.span (fun c => c ≠ '.')
    match rest with
    | [] => (parseDigitsAux ipart 0).map (fun i => sign * i)
    | _ :: fpart =>
      if ipart.isEmpty && fpart.isEmpty then none
      else
        match parseDigitsAux ipart 0, parseDigitsAux fpart 0 with
        | some i, some f => some (sign * ((i : ℚ) + (f : ℚ) / ((10 : ℚ) ^ fpart.length)))
        | _, _ => none

def pyFloat : Val → Option ℚ
  | .prim (.num q) => some q
  | .prim (.bool b) => some (cond b 1 0)
  | .prim (.str s) => parseDecimal s
  | _ => none

inductive PlanError where
  | valueError
deriving DecidableEq

/-- `TaskPlanner._fallback_plan`.  The two `uuid4()` fresh names are the
`freshDoc`/`freshRpt` inputs; `float(...)` failure is the `valueError`. -/
def TaskPlanner.fallbackPlan (request : String) (data : PyDict)
    (freshDoc freshRpt : String) : Except PlanError (List PlannedStep) :=
  let lower := strLower request
  if strContains lower "email" || strContains lower "send email" then
    .ok [⟨"email_agent", "send",
      [("sender", pyGetD data "sender" (.s "noreply@enterprise.com")),
       ("recipient", pyGetD data "recipient" (.s "employee@enterprise.com")),
       ("subject", pyGetD data "subject" (.s "No subject")),
       ("body", pyGetD data "body" (.s request))], "Send email"⟩]
  else if strContains lower "document" || strContains lower "drive" ||
      strContains lower "upload" then
    if strContains lower "upload" then
      .ok [⟨"drive_agent", "upload",
        [("doc_id", pyGetD data "doc_id" (.s freshDoc)),
         ("title", pyGetD data "title" (.s "Untitled")),
         ("content", pyGetD data "content" (.s "")),
         ("tags", pyGetD data "tags" (.list [.str "uploaded"]))], "Upload document"⟩]
    else if strContains lower "search" then
      .ok [⟨"drive_agent", "search",
        [("keyword", pyGetD data "keyword" (.s "policy"))], "Search documents"⟩]
    else if strContains lower "retrieve" || strContains lower "get" then
      .ok [⟨"drive_agent", "retrieve",
        [("doc_id", pyGetD data "doc_id" (.s "policy_v1"))], "Retrieve document"⟩]
    else
      .ok [⟨"drive_agent", "search",
        [("keyword", pyGetD data "keyword" (.s "policy"))], "Search documents"⟩]
  else if strContains lower "expense" || strContains lower "reimburse" ||
      strContains lower "reimbursement" then
    match pyFloat (pyGetD data "amount" (.n 100)) with
    | none => .error .valueError
    | some amount =>
      let reportId := pyGetD data "report_id" (.s freshRpt)
      let employeeId := pyGetD data "employee_id" (.s "emp-001")
      let category := pyGetD data "category" (.s "travel")
      let description := pyGetD data "description" (.s "Auto-submitted by planner")
      .ok [⟨"expense_agent", "submit",
            [("report_id", reportId), ("employee_id", employeeId), ("amount", .n amount),
             ("currency", pyGetD data "currency" (.s "USD")), ("category", category),
             ("description", description)], "Submit expense report"⟩,
           ⟨"expense_agent", "review", [("report_id", reportId)],
            "Policy-based automated review"⟩,
           ⟨"expense_agent", "issue_reimbursement", [("report_id", reportId)],
            "Issue reimbursement if approved"⟩]
  else
    .ok [⟨"drive_agent", "search", [("keyword", .s "policy")],
      "Default route to policy search"⟩]

/-! ## ResponseAggregator (`core/aggregator.py`) -/

structure AgentResponse where
  tool : String
  output : PyDict
  rationale : String
deriving DecidableEq

/-- One `{"output": ..., "rationale": ...}` bucket entry. -/
structure BucketEntry where
  output : PyDict
  rationale : String
deriving DecidableEq

/-- `summary.setdefault(tool, []).append(entry)`: append to the existing
bucket in place, or add a new bucket at the end. -/
def alAppend {α : Type} (k : String) (v : α) :
    List (String × List α) → List (String × List α)
  | [] => [(k, [v])]
  | (k', vs) :: rest =>
    if k' = k then (k', vs ++ [v]) :: rest else (k', vs) :: alAppend k v rest

def bucketResponses (responses : List AgentResponse) : List (String × List BucketEntry) :=
  responses.foldl (fun acc r => alAppend r.tool ⟨r.output, r.rationale⟩ acc) []

/-- `entry["output"].get("status", "ok")`. -/
def entryStatus (e : BucketEntry) : Val := pyGetD e.output "status" (.s "ok")

/-- The statuses all have to be strings for `sorted`/`" & ".join` to
succeed; a non-string status raises `TypeError` in Python. -/
def valStrings : List Val → Option (List String)
  | [] => some []
  | .prim (.str s) :: rest => (valStrings rest).map (s :: ·)
  | _ => none

def insertStr (s : String) : List String → List String
  | [] => [s]
  | t :: rest => if strLe t s then t :: insertStr s rest else s :: t :: rest

def sortStrings : List String → List String
  | [] => []
  | s :: rest => insertStr s (sortStrings rest)

/-- First-occurrence deduplication, the embedding of `set(...)` (followed
by `sorted`, the traversal order of the set does not matter). -/
def dedupAux (seen : List String) : List String → List String
  | [] => []
  | s :: rest =>
    if seen.contains s then dedupAux seen rest else s :: dedupAux (s :: seen) rest

def dedupStrs (l : List String) : List String := dedupAux [] l

structure BucketSummary where
  status : String
  details : Option (List BucketEntry)
deriving DecidableEq

inductive AggError where
  | typeError
deriving DecidableEq

/-- `ResponseAggregator._summarize_outputs`: the status is the
deduplicated set of per-entry statuses, sorted and joined with `" & "`
(`" & ".join(sorted({...}))`). -/
def summarizeOutputs (entries : List BucketEntry) : Except AggError BucketSummary :=
  if entries.isEmpty then .ok ⟨"no-output", none⟩
  else
    match valStrings (entries.map entryStatus) with
    | none => .error .typeError
    | some ss => .ok ⟨String.intercalate " & " (sortStrings (dedupStrs ss)), some entries⟩

structure SynthResult where
  summary : List (String × BucketSummary)
  raw : List PyDict
deriving DecidableEq

/-- `ResponseAggregator.synthesize`. -/
def ResponseAggregator.synthesize (responses : List AgentResponse) :
    Except AggError SynthResult := do
  let buckets := bucketResponses responses
  let summary ← buckets.mapM (fun kv => do
    let s ← summarizeOutputs kv.2
    pure (kv.1, s))
  pure ⟨summary, responses.map (·.output)⟩

/-! ## ExpenseAgent and its mock data (`agents/expense_agent.py`, `agents/mock_data.py`)

The `ExpenseReport` dataclass fields are typed here the way every producer
in the platform fills them (the planner passes string ids and a
`float(...)`-converted amount), so the ill-typed-field failure that Python
would defer to a later comparison surfaces at report creation instead. -/

structure ExpenseReport where
  employeeId : String
  amount : ℚ
  currency : String
  category : String
  description : String
  status : String := "pending"
deriving DecidableEq

structure BankAccount where
  iban : String
  balance : ℚ
deriving DecidableEq

structure EmployeeProfile where
  name : String
  email : String
  role : String
  manager : String
  bankAccount : BankAccount
deriving DecidableEq

/-- The seed `EMPLOYEE_PROFILES` store. -/
def initProfiles : List (String × EmployeeProfile) :=
  [("emp-001", ⟨"Alice Employee", "alice@enterprise.com", "employee",
    "manager@enterprise.com", ⟨"DE89370400440532013000", 1200⟩⟩)]

structure DocumentRecord where
  title : String
  content : String
  tags : List String
deriving DecidableEq

/-- The seed `DOCUMENTS` store. -/
def documents : List (String × DocumentRecord) :=
  [("policy_v1", ⟨"Expense Policy v1",
    "Expenses must be approved by managers and follow category limits.",
    ["policy", "finance"]⟩)]

/-- The agent's `self.expenses` plus the module-global `EMPLOYEE_PROFILES`. -/
structure ExpenseState where
  expenses : List (String × ExpenseReport)
  profiles : List (String × EmployeeProfile)
deriving DecidableEq

inductive AgentError where
  | keyError
  | typeError
  | valueError
  | invalidSignature
deriving DecidableEq

/-- `report.__dict__`, in dataclass field order. -/
def reportDict (r : ExpenseReport) : Val :=
  .dict [("employee_id", .str r.employeeId), ("amount", .num r.amount),
         ("currency", .str r.currency), ("category", .str r.category),
         ("description", .str r.description), ("status", .str r.status)]

/-- `ExpenseAgent._submit_report`; a missing required key is `KeyError`. -/
def ExpenseAgent.submitReport (message : PyDict) (σ : ExpenseState) :
    Except AgentError (PyDict × ExpenseState) :=
  match pyGet message "report_id", pyGet message "employee_id",
      pyGet message "amount", pyGet message "category" with
  | some (.prim (.str reportId)), some (.prim (.str employeeId)),
      some (.prim (.num amount)), some (.prim (.str category)) =>
    let report : ExpenseReport :=
      ⟨employeeId, amount, pyGetStrD message "currency" "USD", category,
       pyGetStrD message "description" "", "pending"⟩
    .ok ([("status", .s "submitted"), ("report_id", .s reportId)],
         { σ with expenses := alSet reportId report σ.expenses })
  | _, _, _, _ => .error .keyError

/-- `ExpenseAgent._review_report`. -/
def ExpenseAgent.reviewReport (message : PyDict) (σ : ExpenseState) :
    Except AgentError (PyDict × ExpenseState) :=
  match pyGet message "report_id" with
  | some (.prim (.str reportId)) =>
    match alGet "policy_v1" documents with
    | none => .ok ([("status", .s "error"), ("reason", .s "Policy not available")], σ)
    | some _ =>
      match alGet reportId σ.expenses with
      | none => .ok ([("status", .s "not_found")], σ)
      | some report =>
        let newStatus := if report.amount > 1000 then "manager_review" else "approved"
        let report' := { report with status := newStatus }
        .ok ([("status", .s "ok"), ("report", reportDict report')],
             { σ with expenses := alSet reportId report' σ.expenses })
  | _ => .error .keyError

/-- `ExpenseAgent._issue_reimbursement`. -/
def ExpenseAgent.issueReimbursement (message : PyDict) (σ : ExpenseState) :
    Except AgentError (PyDict × ExpenseState) :=
  match pyGet message "report_id" with
  | some (.prim (.str reportId)) =>
    match alGet reportId σ.expenses with
    | none => .ok ([("status", .s "not_found")], σ)
    | some report =>
      match alGet report.employeeId σ.profiles with
      | none => .ok ([("status", .s "error"), ("reason", .s "Employee not found")], σ)
      | some emp =>
        if report.status ≠ "approved" then
          .ok ([("status", .s "error"), ("reason", .s "Report not approved")], σ)
        else
          let emp' := { emp with bankAccount :=
            { emp.bankAccount with balance := emp.bankAccount.balance + report.amount } }
          let report' := { report with status := "paid" }
          .ok ([("status", .s "paid"), ("balance", .n emp'.bankAccount.balance)],
               ⟨alSet reportId report' σ.expenses, alSet report.employeeId emp' σ.profiles⟩)
  | _ => .error .keyError

/-- Python truthiness, as used by `if not employee_id` / `if new_iban`. -/
def valTruthy : Val → Bool
  | .prim (.str s) => !s.isEmpty
  | .prim (.num q) => q != 0
  | .prim (.bool b) => b
  | .prim .pynone => false
  | .list xs => !xs.isEmpty
  | .dict xs => !xs.isEmpty

def errMap (reason : String) : PyDict :=
  [("status", .s "error"), ("reason", .s reason)]

/-- `x is not None` on a `.get` result. -/
def notNoneOpt : Option Val → Option Val
  | some (.prim .pynone) => none
  | x => x

def bankDict (b : BankAccount) : Val :=
  .dict [("iban", .str b.iban), ("balance", .num b.balance)]

/-- The `balance_delta` tail of `_update_bank_account`. -/
def ExpenseAgent.updateBalanceDelta (message : PyDict) (employeeId : String)
    (emp : EmployeeProfile) (σ : ExpenseState) : Except AgentError (PyDict × ExpenseState) :=
  match notNoneOpt (pyGet message "balance_delta") with
  | some v =>
    match pyFloat v with
    | none => .ok (errMap "Invalid balance_delta", σ)
    | some d =>
      let emp' := { emp with bankAccount :=
        { emp.bankAccount with balance := emp.bankAccount.balance + d } }
      .ok ([("status", .s "ok"), ("employee_id", .s employeeId),
            ("bank_account", bankDict emp'.bankAccount)],
           { σ with profiles := alSet employeeId emp' σ.profiles })
  | none =>
    .ok ([("status", .s "ok"), ("employee_id", .s employeeId),
          ("bank_account", bankDict emp.bankAccount)], σ)

/-- `ExpenseAgent._update_bank_account`.  Mutations are applied in source
order, so an earlier `new_iban` write survives a later invalid
`balance_set`/`balance_delta` (the Python code mutates the shared profile
dict in place before the error return). -/
def ExpenseAgent.updateBankAccount (message : PyDict) (σ : ExpenseState) :
    Except AgentError (PyDict × ExpenseState) :=
  match pyGet message "employee_id" with
  | some (.prim (.str employeeId)) =>
    if employeeId.isEmpty then .ok (errMap "employee_id is required", σ)
    else
      match alGet employeeId σ.profiles with
      | none => .ok (errMap "Employee not found", σ)
      | some emp =>
        let emp1 :=
          match pyGet message "new_iban" with
          | some (.prim (.str ib)) =>
            if ib.isEmpty then emp
            else { emp with bankAccount := { emp.bankAccount with iban := ib } }
          | _ => emp
        let σ1 : ExpenseState := { σ with profiles := alSet employeeId emp1 σ.profiles }
        match notNoneOpt (pyGet message "balance_set") with
        | some v =>
          match pyFloat v with
          | none => .ok (errMap "Invalid balance_set", σ1)
          | some b =>
            let emp2 := { emp1 with bankAccount := { emp1.bankAccount with balance := b } }
            let σ2 : ExpenseState := { σ with profiles := alSet employeeId emp2 σ.profiles }
            ExpenseAgent.updateBalanceDelta message employeeId emp2 σ2
        | none => ExpenseAgent.updateBalanceDelta message employeeId emp1 σ1
  | some v =>
    if valTruthy v then .ok (errMap "Employee not found", σ)
    else .ok (errMap "employee_id is required", σ)
  | none => .ok (errMap "employee_id is required", σ)

/-- `ExpenseAgent.execute`: verify the signed message, then dispatch on the
action; an unsupported action raises `ValueError`. -/
def ExpenseAgent.execute (message : SignedMessage) (σ : ExpenseState) :
    Except AgentError (PyDict × ExpenseState) :=
  match SignatureService.unwrapMessage message with
  | .error _ => .error .invalidSignature
  | .ok msg =>
    match pyGet msg "action" with
    | some (.prim (.str "submit")) => ExpenseAgent.submitReport msg σ
    | some (.prim (.str "review")) => ExpenseAgent.reviewReport msg σ
    | some (.prim (.str "issue_reimbursement")) => ExpenseAgent.issueReimbursement msg σ
    | some (.prim (.str "update_bank_account")) => ExpenseAgent.updateBankAccount msg σ
    | _ => .error .valueError

/-! ## AgentRouter (`core/tool_router.py`) and AgentOrchestrator (`core/orchestrator.py`)

The orchestrator's whole-system state: the expense tool's stores, the HITL
request store and the anomaly detector.  The model registers the expense
tool (the claims under verification exercise no other tool); the email and
drive tools sit behind the same `dispatch` contract. -/

structure SysState where
  exp : ExpenseState
  hitl : HitlState
  anomaly : AnomalyDetector
deriving DecidableEq

inductive DispatchError where
  | unknownTool
  | policy (e : PolicyError)
  | agent (e : AgentError)
deriving DecidableEq

/-- `AgentRouter.dispatch`: unknown-tool check, policy validation keyed on
the payload's `action`, then sign-and-execute (the expense tool mixes in
`SignedAgentMixin`, so `hasattr(tool, "sign")` holds). -/
def AgentRouter.dispatch (σ : SysState) (now : Int) (toolName : String)
    (payload : PyDict) (role : String) : Except DispatchError PyDict × SysState :=
  if toolName ≠ "expense_agent" then (.error .unknownTool, σ)
  else
    let action := pyGetStrD payload "action" ""
    let rationale := pyGetStrD payload "rationale" ""
    let policyPayload : PyDict :=
      [("input", .s (pyReprDict (alDrop "rationale" payload))), ("rationale", .s rationale)]
    match PolicyEnforcer.validate σ.hitl action role policyPayload now with
    | (.error e, hitl') => (.error (.policy e), { σ with hitl := hitl' })
    | (.ok _, hitl') =>
      let toAgent := alDrop "rationale" payload
      match ExpenseAgent.execute (SignatureService.wrapMessage toAgent) σ.exp with
      | .error e => (.error (.agent e), { σ with hitl := hitl' })
      | .ok (result, exp') => (.ok result, { exp := exp', hitl := hitl', anomaly := σ.anomaly })

/-- The per-step payload `{"action": ..., **step.params, "rationale": ...}`. -/
def mkStepPayload (step : PlannedStep) : PyDict :=
  alSetMany [] ([("action", Val.s step.action)] ++ step.params ++
    [("rationale", Val.s step.rationale)])

/-- `responses.append(...)` after a successful dispatch: cons the step
response onto the rest of the run when it succeeded, propagate its raised
exception otherwise. -/
def stepResult (step : PlannedStep) (out : PyDict)
    (r : Except DispatchError (List AgentResponse) × SysState) :
    Except DispatchError (List AgentResponse) × SysState :=
  match r with
  | (.ok resps, σf) => (.ok (⟨step.agent, out, step.rationale⟩ :: resps), σf)
  | (.error e, σf) => (.error e, σf)

/-- `AgentOrchestrator._execute_plan` composed with
`InstrumentationMiddleware.__call__`: record the anomaly event, dispatch
through the injected router (`f`), stop at the first raised exception.  On
an exception the accumulated responses are discarded and the state of the
already-completed steps is kept (no rollback). -/
def execPlan (f : SysState → String → PyDict → Except DispatchError PyDict × SysState)
    (role sid : String) (now : Int) :
    SysState → List PlannedStep → Except DispatchError (List AgentResponse) × SysState
  | σ, [] => (.ok [], σ)
  | σ, step :: rest =>
    let σa : SysState := { σ with anomaly := (σ.anomaly.recordEvent now step.agent role sid).1 }
    match f σa step.agent (mkStepPayload step) with
    | (.error e, σ') => (.error e, σ')
    | (.ok out, σ') => stepResult step out (execPlan f role sid now σ' rest)

/-! ## Helper lemmas on the dict embedding -/

theorem alGet_alSet_self {α : Type} (k : String) (v : α) (l : List (String × α)) :
    alGet k (alSet k v l) = some v := by
  induction l with
  | nil => simp [alSet, alGet]
  | cons p rest ih =>
    cases p with
    | mk k' v' =>
      by_cases h : k' = k
      · simp [alSet, h, alGet]
      · simp [alSet, h, alGet, ih]

theorem alGet_alSet_ne {α : Type} (k k' : String) (v : α) (l : List (String × α))
    (h : k' ≠ k) : alGet k (alSet k' v l) = alGet k l := by
  induction l with
  | nil => simp [alSet, alGet, h]
  | cons p rest ih =>
    cases p with
    | mk k0 v0 =>
      by_cases h0 : k0 = k'
      · subst h0; simp [alSet, alGet, h]
      · by_cases h1 : k0 = k <;> simp [alSet, alGet, h0, h1, ih, Ne.symm h]

/-! ## Claims about the RBAC table and the signing service -/

/-- C2: `RBACService.check_permission(R, A)` returns true exactly when `A`
is in the static role table entry for `R`; an unknown role always returns
false. -/
theorem rbac_check_iff_table (R A : String) :
    (RBACService.checkPermission R A = true ↔
      ∃ rd, alGet R rbacRoles = some rd ∧ A ∈ rd.permissions) ∧
    (alGet R rbacRoles = none → RBACService.checkPermission R A = false) := by
  constructor
  · unfold RBACService.checkPermission
    cases h : alGet R rbacRoles with
    | none => simp
    | some rd => simp [List.contains, List.elem_iff]
  · intro h
    unfold RBACService.checkPermission
    rw [h]

theorem rbac_check_iff_table_witness :
    RBACService.checkPermission "intruder" "send" = false :=
  (rbac_check_iff_table "intruder" "send").2 rfl

/-- C3: the wrap/unwrap round-trip through the signature service is
lossless for every payload (same shared secret on both sides). -/
theorem signing_roundtrip (p : PyDict) :
    SignatureService.unwrapMessage (SignatureService.wrapMessage p) = .ok p :=
  unwrap_wrap p

/-- C4: any signature other than the HMAC of the canonical serialization
fails verification, and unwrapping such a message yields the
invalid-signature error instead of a payload. -/
theorem tampered_signature_rejected (p : PyDict) (s' : String)
    (h : s' ≠ SignatureService.sign (serializePayload p)) :
    SignatureService.verify (serializePayload p) s' = false ∧
    SignatureService.unwrapMessage ⟨p, s'⟩ = .error .invalidSignature := by
  have hv : SignatureService.verify (serializePayload p) s' = false := by
    unfold SignatureService.verify
    exact beq_eq_false_iff_ne.mpr (fun he => h he.symm)
  refine ⟨hv, ?_⟩
  unfold SignatureService.unwrapMessage
  simp [hv]

set_option maxRecDepth 8000 in
theorem tampered_signature_rejected_witness :
    ("deadbeef" ≠ SignatureService.sign (serializePayload [("action", Val.s "submit")])) ∧
    (SignatureService.verify (serializePayload [("action", Val.s "submit")]) "deadbeef" = false ∧
     SignatureService.unwrapMessage ⟨[("action", Val.s "submit")], "deadbeef"⟩ =
       .error .invalidSignature) :=
  ⟨by decide, tampered_signature_rejected [("action", Val.s "submit")] "deadbeef" (by decide)⟩

/-! ## Claims about the policy enforcer and the HITL store -/

theorem parseToolPayload_fields (p : PyDict) (tp : ToolPayload)
    (h : parseToolPayload p = some tp) :
    pyGet p "input" = some (.prim (.str tp.input)) ∧
    pyGet p "rationale" = some (.prim (.str tp.rationale)) := by
  unfold parseToolPayload at h
  split at h
  · split at h
    · exact absurd h (by simp)
    · cases h
      constructor <;> assumption
  · exact absurd h (by simp)

/-- C1: for an `admin` calling `issue_reimbursement` with a shape-valid
payload, `validate` raises the HITL `PermissionError` and stores an
approval request under `issue_reimbursement:` + the first 20 characters of
the input, retrievable by `status` with `approved` unset. -/
theorem hitl_gates_issue_reimbursement (σ : HitlState) (now : Int) (p : PyDict)
    (tp : ToolPayload) (h : parseToolPayload p = some tp) :
    PolicyEnforcer.validate σ "issue_reimbursement" "admin" p now =
      (.error (.permissionError hitlMessage),
       HITLService.createRequest σ ("issue_reimbursement:" ++ tp.input.take 20)
         "issue_reimbursement" "admin" tp.rationale now) ∧
    ∃ req, HITLService.status
        (PolicyEnforcer.validate σ "issue_reimbursement" "admin" p now).2
        ("issue_reimbursement:" ++ tp.input.take 20) = some req ∧
      req.approved = none := by
  obtain ⟨hi, hr⟩ := parseToolPayload_fields p tp h
  have hval : PolicyEnforcer.validate σ "issue_reimbursement" "admin" p now =
      (.error (.permissionError hitlMessage),
       HITLService.createRequest σ ("issue_reimbursement:" ++ tp.input.take 20)
         "issue_reimbursement" "admin" tp.rationale now) := by
    unfold PolicyEnforcer.validate PolicyEnforcer.enforceHitl
    simp [h, RBACService.checkPermission, rbacRoles, alGet, policyRules,
      List.find?, pyGetStrD, hi, hr]
  refine ⟨hval, ?_⟩
  rw [hval]
  exact ⟨_, alGet_alSet_self _ _ _, rfl⟩

theorem hitl_gates_issue_reimbursement_witness :
    (parseToolPayload [("input", Val.s "pay employee emp-001 now"), ("rationale", Val.s "ops")]
        = some ⟨"pay employee emp-001 now", "ops"⟩) ∧
    (PolicyEnforcer.validate [] "issue_reimbursement" "admin"
        [("input", Val.s "pay employee emp-001 now"), ("rationale", Val.s "ops")] 0 =
      (.error (.permissionError hitlMessage),
       HITLService.createRequest [] ("issue_reimbursement:" ++ ("pay employee emp-001 now").take 20)
         "issue_reimbursement" "admin" "ops" 0) ∧
    ∃ req, HITLService.status
        (PolicyEnforcer.validate [] "issue_reimbursement" "admin"
          [("input", Val.s "pay employee emp-001 now"), ("rationale", Val.s "ops")] 0).2
        ("issue_reimbursement:" ++ ("pay employee emp-001 now").take 20) = some req ∧
      req.approved = none) :=
  ⟨by rfl, hitl_gates_issue_reimbursement [] 0
    [("input", Val.s "pay employee emp-001 now"), ("rationale", Val.s "ops")]
    ⟨"pay employee emp-001 now", "ops"⟩ (by rfl)⟩

/-- C7 fails as stated on the code: `approve` and `deny` assign
unconditionally, so a request resolved to `some true` by `approve` is
changed to `some false` by a later `deny` — the second transition is not
blocked. -/
theorem approve_then_deny_overwrites :
    (HITLService.status
      (HITLService.approve
        (HITLService.createRequest [] "r1" "issue_reimbursement" "admin" "why" 0)
        "r1" "alice").2 "r1").map (·.approved) = some (some true) ∧
    (HITLService.status
      (HITLService.deny
        (HITLService.approve
          (HITLService.createRequest [] "r1" "issue_reimbursement" "admin" "why" 0)
          "r1" "alice").2 "r1" "bob").2 "r1").map (·.approved) = some (some false) := by
  decide

/-- C7 (amended): `approved` starts unset on creation; whenever the
request exists, a successful `approve` sets it to `some true` and a
successful `deny` sets it to `some false`, unconditionally — the last
resolution wins, with no at-most-once guard. -/
theorem approved_follows_last_resolution (σ : HitlState)
    (rid tool requester rat approver : String) (now : Int) :
    (HITLService.status (HITLService.createRequest σ rid tool requester rat now) rid).map
        (·.approved) = some none ∧
    (∀ req, alGet rid σ = some req →
      (HITLService.status (HITLService.approve σ rid approver).2 rid).map (·.approved) =
          some (some true) ∧
      (HITLService.status (HITLService.deny σ rid approver).2 rid).map (·.approved) =
          some (some false)) := by
  constructor
  · unfold HITLService.status HITLService.createRequest
    rw [alGet_alSet_self]
    rfl
  · intro req hreq
    unfold HITLService.status HITLService.approve HITLService.deny
    rw [hreq]
    simp [alGet_alSet_self]

theorem approved_follows_last_resolution_witness :
    (alGet "r1" (HITLService.createRequest [] "r1" "t" "admin" "w" 0) =
      some ⟨"r1", "t", "admin", "w", 0, none, none⟩) ∧
    ((HITLService.status
        (HITLService.createRequest (HITLService.createRequest [] "r1" "t" "admin" "w" 0)
          "r1" "t" "admin" "w" 0) "r1").map (·.approved) = some none ∧
     (∀ req, alGet "r1" (HITLService.createRequest [] "r1" "t" "admin" "w" 0) = some req →
        (HITLService.status
          (HITLService.approve (HITLService.createRequest [] "r1" "t" "admin" "w" 0)
            "r1" "bob").2 "r1").map (·.approved) = some (some true) ∧
        (HITLService.status
          (HITLService.deny (HITLService.createRequest [] "r1" "t" "admin" "w" 0)
            "r1" "bob").2 "r1").map (·.approved) = some (some false))) :=
  ⟨by rfl, approved_follows_last_resolution
    (HITLService.createRequest [] "r1" "t" "admin" "w" 0) "r1" "t" "admin" "w" "bob" 0⟩

/-! ## Claims about the planner -/

theorem containsSub_iff_infix (hay pat : List Char) :
    containsSub hay pat = true ↔ pat <:+: hay := by
  induction hay with
  | nil =>
    simp only [containsSub, List.isEmpty_iff, List.infix_nil]
  | cons a t ih =>
    simp [containsSub, List.infix_cons_iff, ih, List.isPrefixOf_iff_prefix]

theorem strContains_of_infix {s p q : String}
    (hpq : q.data <:+: p.data) (h : strContains s p = true) : strContains s q = true := by
  rw [strContains, containsSub_iff_infix] at h ⊢
  exact hpq.trans h

/-- C5: a request whose lowercase form mentions one of the expense
keywords and none of the higher-priority keywords plans exactly the
three-step `submit`/`review`/`issue_reimbursement` chain on the expense
agent, with all three steps sharing one `report_id`. -/
theorem plan_expense_three_steps (request : String) (data : PyDict)
    (freshDoc freshRpt : String) (amount : ℚ)
    (hkw : (strContains (strLower request) "expense" || strContains (strLower request) "reimburse" ||
        strContains (strLower request) "reimbursement") = true)
    (hne : strContains (strLower request) "email" = false)
    (hnd : strContains (strLower request) "document" = false)
    (hnv : strContains (strLower request) "drive" = false)
    (hnu : strContains (strLower request) "upload" = false)
    (hamt : pyFloat (pyGetD data "amount" (.n 100)) = some amount) :
    ∃ steps, TaskPlanner.fallbackPlan request data freshDoc freshRpt = .ok steps ∧
      steps.length = 3 ∧
      steps.map (·.action) = ["submit", "review", "issue_reimbursement"] ∧
      steps.map (·.agent) = ["expense_agent", "expense_agent", "expense_agent"] ∧
      ∃ rid, steps.map (fun s => alGet "report_id" s.params) = [some rid, some rid, some rid] := by
  have hse : strContains (strLower request) "send email" = false := by
    cases hc : strContains (strLower request) "send email"
    · rfl
    · have : strContains (strLower request) "email" = true :=
        strContains_of_infix (by decide) hc
      rw [hne] at this
      exact absurd this (by simp)
  have hplan : TaskPlanner.fallbackPlan request data freshDoc freshRpt = .ok
      [⟨"expense_agent", "submit",
        [("report_id", pyGetD data "report_id" (.s freshRpt)),
         ("employee_id", pyGetD data "employee_id" (.s "emp-001")),
         ("amount", .n amount),
         ("currency", pyGetD data "currency" (.s "USD")),
         ("category", pyGetD data "category" (.s "travel")),
         ("description", pyGetD data "description" (.s "Auto-submitted by planner"))],
        "Submit expense report"⟩,
       ⟨"expense_agent", "review", [("report_id", pyGetD data "report_id" (.s freshRpt))],
        "Policy-based automated review"⟩,
       ⟨"expense_agent", "issue_reimbursement",
        [("report_id", pyGetD data "report_id" (.s freshRpt))],
        "Issue reimbursement if approved"⟩] := by
    unfold TaskPlanner.fallbackPlan
    simp only [hne, hse, hnd, hnv, hnu, hkw, hamt, Bool.or_self, Bool.or_false,
      Bool.false_or, if_true, if_false, Bool.false_eq_true, ite_false, ite_true]
  exact ⟨_, hplan, rfl, rfl, rfl, ⟨pyGetD data "report_id" (.s freshRpt), by simp [alGet]⟩⟩

theorem plan_expense_three_steps_witness :
    ((strContains (strLower "Expense report") "expense" ||
        strContains (strLower "Expense report") "reimburse" ||
        strContains (strLower "Expense report") "reimbursement") = true) ∧
    (strContains (strLower "Expense report") "email" = false) ∧
    (strContains (strLower "Expense report") "document" = false) ∧
    (strContains (strLower "Expense report") "drive" = false) ∧
    (strContains (strLower "Expense report") "upload" = false) ∧
    (pyFloat (pyGetD [("report_id", Val.s "rpt-9")] "amount" (.n 100)) = some 100) ∧
    (∃ steps, TaskPlanner.fallbackPlan "Expense report" [("report_id", Val.s "rpt-9")]
        "doc-1" "rpt-1" = .ok steps ∧
      steps.length = 3 ∧
      steps.map (·.action) = ["submit", "review", "issue_reimbursement"] ∧
      steps.map (·.agent) = ["expense_agent", "expense_agent", "expense_agent"] ∧
      ∃ rid, steps.map (fun s => alGet "report_id" s.params) = [some rid, some rid, some rid]) :=
  ⟨by decide, by decide, by decide, by decide, by decide, by rfl,
   plan_expense_three_steps "Expense report" [("report_id", Val.s "rpt-9")] "doc-1" "rpt-1" 100
     (by decide) (by decide) (by decide) (by decide) (by decide) (by rfl)⟩

/-! ## Claims about the expense agent -/

/-- C10: `issue_reimbursement` pays out — the employee balance grows by
the report amount and the report status becomes `"paid"` — exactly when
the report exists, its employee exists, and the report status is
`"approved"`; in every other case a structured not-found/error map is
returned with the state unchanged. -/
theorem issue_reimbursement_pays_iff_approved (σ : ExpenseState) (message : PyDict)
    (rid : String) (hrid : pyGet message "report_id" = some (.prim (.str rid))) :
    (∀ rep emp, alGet rid σ.expenses = some rep →
      alGet rep.employeeId σ.profiles = some emp → rep.status = "approved" →
      ExpenseAgent.issueReimbursement message σ =
        .ok ([("status", .s "paid"), ("balance", .n (emp.bankAccount.balance + rep.amount))],
             ⟨alSet rid { rep with status := "paid" } σ.expenses,
              alSet rep.employeeId
                { emp with bankAccount :=
                  { emp.bankAccount with balance := emp.bankAccount.balance + rep.amount } }
                σ.profiles⟩)) ∧
    (alGet rid σ.expenses = none →
      ExpenseAgent.issueReimbursement message σ = .ok ([("status", .s "not_found")], σ)) ∧
    (∀ rep, alGet rid σ.expenses = some rep → alGet rep.employeeId σ.profiles = none →
      ExpenseAgent.issueReimbursement message σ =
        .ok ([("status", .s "error"), ("reason", .s "Employee not found")], σ)) ∧
    (∀ rep emp, alGet rid σ.expenses = some rep → alGet rep.employeeId σ.profiles = some emp →
      rep.status ≠ "approved" →
      ExpenseAgent.issueReimbursement message σ =
        .ok ([("status", .s "error"), ("reason", .s "Report not approved")], σ)) := by
  refine ⟨?_, ?_, ?_, ?_⟩
  · intro rep emp h1 h2 h3
    unfold ExpenseAgent.issueReimbursement
    simp [hrid, h1, h2, h3]
  · intro h1
    unfold ExpenseAgent.issueReimbursement
    simp [hrid, h1]
  · intro rep h1 h2
    unfold ExpenseAgent.issueReimbursement
    simp [hrid, h1, h2]
  · intro rep emp h1 h2 h3
    unfold ExpenseAgent.issueReimbursement
    simp [hrid, h1, h2, h3]

theorem issue_reimbursement_pays_iff_approved_witness :
    (pyGet [("report_id", Val.s "rpt-1")] "report_id" = some (.prim (.str "rpt-1"))) ∧
    (alGet "rpt-1"
        (ExpenseState.mk [("rpt-1", ⟨"emp-001", 50, "USD", "travel", "", "approved"⟩)]
          initProfiles).expenses =
      some ⟨"emp-001", 50, "USD", "travel", "", "approved"⟩) ∧
    (ExpenseAgent.issueReimbursement [("report_id", Val.s "rpt-1")]
        ⟨[("rpt-1", ⟨"emp-001", 50, "USD", "travel", "", "approved"⟩)], initProfiles⟩ =
      .ok ([("status", .s "paid"), ("balance", .n (1200 + 50))],
           ⟨alSet "rpt-1" ⟨"emp-001", 50, "USD", "travel", "", "paid"⟩
              [("rpt-1", ⟨"emp-001", 50, "USD", "travel", "", "approved"⟩)],
            alSet "emp-001"
              ⟨"Alice Employee", "alice@enterprise.com", "employee",
               "manager@enterprise.com", ⟨"DE89370400440532013000", 1200 + 50⟩⟩
              initProfiles⟩)) :=
  ⟨rfl, rfl,
   (issue_reimbursement_pays_iff_approved
      ⟨[("rpt-1", ⟨"emp-001", 50, "USD", "travel", "", "approved"⟩)], initProfiles⟩
      [("report_id", Val.s "rpt-1")] "rpt-1" rfl).1
    ⟨"emp-001", 50, "USD", "travel", "", "approved"⟩
    ⟨"Alice Employee", "alice@enterprise.com", "employee", "manager@enterprise.com",
     ⟨"DE89370400440532013000", 1200⟩⟩ rfl rfl rfl⟩

/-! ## Claims about the anomaly detector -/

theorem pruneFront_eq_of_fresh {cutoff : Int} {l : List ActionEvent}
    (h : ∀ e ∈ l, ¬ e.timestamp < cutoff) : pruneFront cutoff l = l := by
  cases l with
  | nil => rfl
  | cons e rest =>
    rw [pruneFront, if_neg (h e (List.mem_cons_self e rest))]

theorem pruneFront_fresh_of_sorted {cutoff : Int} {l : List ActionEvent}
    (hs : List.Pairwise (fun a b => a.timestamp ≤ b.timestamp) l) :
    ∀ e ∈ pruneFront cutoff l, cutoff ≤ e.timestamp := by
  induction l with
  | nil => simp [pruneFront]
  | cons a rest ih =>
    rw [List.pairwise_cons] at hs
    by_cases h : a.timestamp < cutoff
    · rw [pruneFront, if_pos h]
      exact ih hs.2
    · rw [pruneFront, if_neg h]
      intro e he
      rcases List.mem_cons.mp he with rfl | hm
      · omega
      · have := hs.1 e hm
        omega

theorem recordEvent_fresh (d : AnomalyDetector) (now : Int) (tool role sid : String)
    (hw : 0 ≤ d.window)
    (h : ∀ e ∈ d.events, ¬ e.timestamp < now - d.window) :
    (d.recordEvent now tool role sid).1.events = d.events ++ [⟨now, tool, role, sid⟩] := by
  unfold AnomalyDetector.recordEvent
  simp only
  rw [pruneFront_eq_of_fresh]
  intro e he
  rcases List.mem_append.mp he with hm | hm
  · exact h e hm
  · simp only [List.mem_singleton] at hm
    subst hm
    simp only
    omega

theorem recordMany_events (tool role : String) (calls : List (Int × String)) :
    ∀ (d : AnomalyDetector), 0 ≤ d.window →
    (∀ c ∈ calls, ∀ e ∈ d.events, ¬ e.timestamp < c.1 - d.window) →
    List.Pairwise (fun a b => ¬ a.1 < b.1 - d.window) calls →
    (recordMany tool role d calls).events =
        d.events ++ calls.map (fun c => ⟨c.1, tool, role, c.2⟩) ∧
    (recordMany tool role d calls).window = d.window ∧
    (recordMany tool role d calls).threshold = d.threshold := by
  induction calls with
  | nil => intro d hw h hp; simp [recordMany]
  | cons c rest ih =>
    intro d hw h hp
    rw [List.pairwise_cons] at hp
    have hev : (d.recordEvent c.1 tool role c.2).1.events =
        d.events ++ [⟨c.1, tool, role, c.2⟩] :=
      recordEvent_fresh d c.1 tool role c.2 hw
        (fun e he => h c (List.mem_cons_self c rest) e he)
    have hrest := ih (d.recordEvent c.1 tool role c.2).1 hw
      (by
        intro c' hc' e he
        rw [hev] at he
        rcases List.mem_append.mp he with hm | hm
        · exact h c' (List.mem_cons_of_mem c hc') e hm
        · simp only [List.mem_singleton] at hm
          subst hm
          simpa using hp.1 c' hc')
      hp.2
    rw [recordMany]
    refine ⟨?_, hrest.2⟩
    rw [hrest.1, hev]
    simp

theorem recordTrace_append_last (tool role : String) (calls : List (Int × String))
    (c : Int × String) :
    ∀ d, recordTrace tool role d (calls ++ [c]) =
      (recordMany tool role d calls).recordEvent c.1 tool role c.2 := by
  induction calls with
  | nil => intro d; rfl
  | cons c' rest ih =>
    intro d
    cases rest with
    | nil => exact ih (d.recordEvent c'.1 tool role c'.2).1
    | cons r rs => exact ih (d.recordEvent c'.1 tool role c'.2).1

/-- When nothing is pruned and every queued event matches the recorded
`(tool, role)`, the signal fires as soon as the queue length (with the new
event) exceeds the threshold. -/
theorem recordEvent_fires (d : AnomalyDetector) (now : Int) (tool role sid : String)
    (hfresh : ∀ e ∈ d.events, ¬ e.timestamp < now - d.window)
    (hw : 0 ≤ d.window)
    (hmatch : ∀ e ∈ d.events, e.toolName = tool ∧ e.role = role)
    (hcnt : d.threshold < d.events.length + 1) :
    (d.recordEvent now tool role sid).2 = true := by
  unfold AnomalyDetector.recordEvent
  simp only
  rw [pruneFront_eq_of_fresh]
  · rw [List.countP_eq_length.mpr]
    · simp only [List.length_append, List.length_singleton, decide_eq_true_eq]
      exact hcnt
    · intro e he
      rcases List.mem_append.mp he with hm | hm
      · obtain ⟨h1, h2⟩ := hmatch e hm
        simp [h1, h2]
      · simp only [List.mem_singleton] at hm
        subst hm
        simp
  · intro e he
    rcases List.mem_append.mp he with hm | hm
    · exact hfresh e hm
    · simp only [List.mem_singleton] at hm
      subst hm
      simp only
      omega

/-- C8: starting from a fresh detector (window 300, threshold 10), eleven
`record_event` calls sharing tool and role that all fall within the window
make the eleventh call emit the security signal; and each `record_event`
prunes everything older than the window from a time-ordered queue of past
events, so stale events cannot count toward a later violation. -/
theorem anomaly_eleventh_fires_and_stale_pruned :
    (∀ (calls : List (Int × String)) (tool role : String),
      calls.length = 11 →
      (∀ a ∈ calls, ∀ b ∈ calls, b.1 - a.1 ≤ 300) →
      (recordTrace tool role ⟨300, 10, []⟩ calls).2 = true) ∧
    (∀ (d : AnomalyDetector) (now : Int) (tool role sid : String),
      0 ≤ d.window →
      List.Pairwise (fun a b => a.timestamp ≤ b.timestamp) d.events →
      (∀ e ∈ d.events, e.timestamp ≤ now) →
      ∀ e ∈ (d.recordEvent now tool role sid).1.events, now - d.window ≤ e.timestamp) := by
  constructor
  · intro calls tool role hlen hpairs
    have hne : calls ≠ [] := by
      intro h
      rw [h] at hlen
      simp at hlen
    obtain ⟨init, last, hsplit⟩ : ∃ init last, calls = init ++ [last] :=
      ⟨calls.dropLast, calls.getLast hne, (List.dropLast_append_getLast hne).symm⟩
    subst hsplit
    have hinit : init.length = 10 := by
      simp at hlen
      omega
    have hsub : ∀ a ∈ init, a ∈ init ++ [last] :=
      fun a ha => List.mem_append.mpr (Or.inl ha)
    have hlastm : last ∈ init ++ [last] := List.mem_append.mpr (Or.inr (by simp))
    obtain ⟨hev, hwin, hthr⟩ := recordMany_events tool role init ⟨300, 10, []⟩
      (by norm_num) (by simp)
      (List.pairwise_of_forall_mem_list (fun a ha b hb => by
        have := hpairs a (hsub a ha) b (hsub b hb)
        show ¬ a.1 < b.1 - 300
        omega))
    rw [recordTrace_append_last]
    apply recordEvent_fires
    · intro e he
      rw [hev] at he
      simp only [List.nil_append, List.mem_map] at he
      obtain ⟨cc, hcc, rfl⟩ := he
      rw [hwin]
      have := hpairs cc (hsub cc hcc) last hlastm
      show ¬ cc.1 < last.1 - 300
      omega
    · rw [hwin]
      norm_num
    · intro e he
      rw [hev] at he
      simp only [List.nil_append, List.mem_map] at he
      obtain ⟨cc, hcc, rfl⟩ := he
      exact ⟨rfl, rfl⟩
    · rw [hthr, hev]
      simp [hinit]
  · intro d now tool role sid hw hsorted hpast
    unfold AnomalyDetector.recordEvent
    simp only
    intro e he
    refine pruneFront_fresh_of_sorted ?_ e he
    rw [List.pairwise_append]
    refine ⟨hsorted, List.pairwise_singleton _ _, ?_⟩
    intro a ha b hb
    simp only [List.mem_singleton] at hb
    subst hb
    exact hpast a ha

theorem anomaly_eleventh_fires_and_stale_pruned_witness :
    (([(0, "s1"), (30, "s1"), (60, "s1"), (90, "s2"), (120, "s2"), (150, "s2"),
       (180, "s3"), (210, "s3"), (240, "s3"), (270, "s4"), (300, "s4")] :
        List (Int × String)).length = 11) ∧
    ((recordTrace "search" "employee" ⟨300, 10, []⟩
        [(0, "s1"), (30, "s1"), (60, "s1"), (90, "s2"), (120, "s2"), (150, "s2"),
         (180, "s3"), (210, "s3"), (240, "s3"), (270, "s4"), (300, "s4")]).2 = true) ∧
    ((⟨300, 10, [⟨0, "search", "employee", "s1"⟩]⟩ :
        AnomalyDetector).recordEvent 400 "search" "employee" "s9").1.events.all
      (fun e => decide (400 - 300 ≤ e.timestamp)) = true :=
  ⟨by decide,
   anomaly_eleventh_fires_and_stale_pruned.1
     [(0, "s1"), (30, "s1"), (60, "s1"), (90, "s2"), (120, "s2"), (150, "s2"),
      (180, "s3"), (210, "s3"), (240, "s3"), (270, "s4"), (300, "s4")]
     "search" "employee" (by decide) (by decide),
   by decide⟩

/-! ## Claims about the aggregator -/

theorem alGet_alAppend_self {α : Type} (k : String) (v : α) (l : List (String × List α)) :
    alGet k (alAppend k v l) = some ((alGet k l).getD [] ++ [v]) := by
  induction l with
  | nil => simp [alAppend, alGet]
  | cons p rest ih =>
    obtain ⟨k0, vs⟩ := p
    by_cases h : k0 = k
    · subst h
      simp [alAppend, alGet]
    · simp [alAppend, alGet, h, ih]

theorem alGet_alAppend_ne {α : Type} (k k' : String) (v : α) (l : List (String × List α))
    (h : k' ≠ k) : alGet k (alAppend k' v l) = alGet k l := by
  induction l with
  | nil => simp [alAppend, alGet, h]
  | cons p rest ih =>
    obtain ⟨k0, vs⟩ := p
    by_cases h0 : k0 = k'
    · subst h0
      simp [alAppend, alGet, h]
    · by_cases h1 : k0 = k <;> simp [alAppend, alGet, h0, h1, ih, Ne.symm h]

/-- The entries the aggregator accumulates for tool `t`, in input order. -/
def entriesOf (t : String) (rs : List AgentResponse) : List BucketEntry :=
  (rs.filter (fun r => r.tool == t)).map (fun r => ⟨r.output, r.rationale⟩)

/-- Appending entries to an optional existing bucket. -/
def optAppend {α : Type} (o : Option (List α)) (l : List α) : Option (List α) :=
  match o, l with
  | some vs, l => some (vs ++ l)
  | none, [] => none
  | none, l => some l

theorem bucket_fold_lookup (t : String) (rs : List AgentResponse) :
    ∀ acc, alGet t (rs.foldl (fun acc r => alAppend r.tool ⟨r.output, r.rationale⟩ acc) acc) =
      optAppend (alGet t acc) (entriesOf t rs) := by
  induction rs with
  | nil =>
    intro acc
    simp only [List.foldl_nil, entriesOf, List.filter_nil, List.map_nil]
    cases alGet t acc <;> simp [optAppend]
  | cons r rest ih =>
    intro acc
    rw [List.foldl_cons, ih]
    by_cases h : r.tool = t
    · rw [h, alGet_alAppend_self]
      have hent : entriesOf t (r :: rest) =
          (⟨r.output, r.rationale⟩ : BucketEntry) :: entriesOf t rest := by
        simp [entriesOf, List.filter_cons, h]
      rw [hent]
      cases alGet t acc <;> simp [optAppend]
    · rw [alGet_alAppend_ne _ _ _ _ h]
      have hent : entriesOf t (r :: rest) = entriesOf t rest := by
        simp [entriesOf, List.filter_cons, h]
      rw [hent]

/-- Every bucket produced by the fold is nonempty and all its entries come
from the input responses. -/
theorem bucket_fold_sound {Q : BucketEntry → Prop} (rs : List AgentResponse)
    (hQ : ∀ r ∈ rs, Q ⟨r.output, r.rationale⟩) :
    ∀ acc, (∀ p ∈ acc, p.2 ≠ [] ∧ ∀ e ∈ p.2, Q e) →
    ∀ p ∈ rs.foldl (fun acc r => alAppend r.tool ⟨r.output, r.rationale⟩ acc) acc,
      p.2 ≠ [] ∧ ∀ e ∈ p.2, Q e := by
  induction rs with
  | nil => intro acc hacc; exact hacc
  | cons r rest ih =>
    intro acc hacc
    rw [List.foldl_cons]
    refine ih (fun q hq => hQ q (List.mem_cons_of_mem r hq)) _ ?_
    have hv : Q ⟨r.output, r.rationale⟩ := hQ r (List.mem_cons_self r rest)
    clear ih hQ
    induction acc with
    | nil =>
      intro p hp
      simp only [alAppend] at hp
      rcases List.mem_singleton.mp hp with rfl
      exact ⟨by simp, by intro e he; rcases List.mem_singleton.mp he with rfl; exact hv⟩
    | cons q qrest ihq =>
      obtain ⟨k0, vs⟩ := q
      intro p hp
      by_cases h0 : k0 = r.tool
      · subst h0
        simp only [alAppend, if_pos rfl] at hp
        rcases List.mem_cons.mp hp with rfl | hp
        · obtain ⟨hne, hq⟩ := hacc (r.tool, vs) (List.mem_cons_self _ _)
          refine ⟨by simp, ?_⟩
          intro e he
          rcases List.mem_append.mp he with hm | hm
          · exact hq e hm
          · rcases List.mem_singleton.mp hm with rfl
            exact hv
        · exact hacc p (List.mem_cons_of_mem _ hp)
      · simp only [alAppend, if_neg h0] at hp
        rcases List.mem_cons.mp hp with rfl | hp
        · exact hacc (k0, vs) (List.mem_cons_self _ _)
        · exact ihq (fun q hq => hacc q (List.mem_cons_of_mem _ hq)) p hp

theorem entryStatus_str (e : BucketEntry) (s : String) (h : entryStatus e = Val.s s) :
    pyGetStrD e.output "status" "ok" = s := by
  unfold entryStatus pyGetD at h
  unfold pyGetStrD
  cases hg : pyGet e.output "status" with
  | none =>
    rw [hg] at h
    simp only [Option.getD_none, Val.s] at h
    cases h
    rfl
  | some v =>
    rw [hg] at h
    simp only [Option.getD_some, Val.s] at h
    subst h
    rfl

theorem valStrings_of_all_str (entries : List BucketEntry)
    (h : ∀ e ∈ entries, ∃ s, entryStatus e = Val.s s) :
    valStrings (entries.map entryStatus) =
      some (entries.map (fun e => pyGetStrD e.output "status" "ok")) := by
  induction entries with
  | nil => rfl
  | cons e rest ih =>
    obtain ⟨s, hs⟩ := h e (List.mem_cons_self e rest)
    have hrest := ih (fun q hq => h q (List.mem_cons_of_mem e hq))
    rw [List.map_cons, List.map_cons, hs, entryStatus_str e s hs]
    show (valStrings (rest.map entryStatus)).map (s :: ·) = _
    rw [hrest]
    rfl

theorem summarizeOutputs_all_str (entries : List BucketEntry)
    (hne : entries ≠ [])
    (h : ∀ e ∈ entries, ∃ s, entryStatus e = Val.s s) :
    summarizeOutputs entries = .ok ⟨String.intercalate " & "
        (sortStrings (dedupStrs (entries.map (fun e => pyGetStrD e.output "status" "ok")))),
      some entries⟩ := by
  unfold summarizeOutputs
  rw [if_neg (by simpa using hne)]
  rw [valStrings_of_all_str entries h]

theorem mapM_summaries (bs : List (String × List BucketEntry))
    (h : ∀ p ∈ bs, ∃ s, summarizeOutputs p.2 = .ok s) :
    ∃ out, (bs.mapM (fun kv => do
        let s ← summarizeOutputs kv.2
        pure (kv.1, s)) : Except AggError (List (String × BucketSummary))) = .ok out ∧
      ∀ t, alGet t out = (alGet t bs).bind (fun es => (summarizeOutputs es).toOption) := by
  induction bs with
  | nil => exact ⟨[], rfl, fun t => rfl⟩
  | cons p rest ih =>
    obtain ⟨k, es⟩ := p
    obtain ⟨s, hs⟩ := h (k, es) (List.mem_cons_self _ _)
    obtain ⟨out', hout', hlook⟩ := ih (fun q hq => h q (List.mem_cons_of_mem _ hq))
    refine ⟨(k, s) :: out', ?_, ?_⟩
    · rw [List.mapM_cons, hs, hout']
      rfl
    · intro t
      by_cases ht : k = t
      · subst ht
        simp [alGet, hs, Except.toOption]
      · simp [alGet, ht, hlook t]

theorem optAppend_none_ne {α : Type} (l : List α) (h : l ≠ []) :
    optAppend (none : Option (List α)) l = some l := by
  cases l with
  | nil => exact absurd rfl h
  | cons a as => rfl

/-- C9: `synthesize` buckets the responses by tool; each bucket's status
string is the deduplicated set of the entries' `output.status` values
(`"ok"` when absent), sorted and joined with `" & "`; its details list
keeps one output/rationale pair per response to that tool; and `raw` is
the list of all outputs in input order. -/
theorem synthesize_groups_by_tool (responses : List AgentResponse)
    (h : ∀ r ∈ responses, ∃ s, pyGetD r.output "status" (Val.s "ok") = Val.s s) :
    ∃ res, ResponseAggregator.synthesize responses = .ok res ∧
      res.raw = responses.map (·.output) ∧
      ∀ t, alGet t res.summary =
        (if (responses.filter (fun r => r.tool == t)).isEmpty then none
         else some ⟨String.intercalate " & "
             (sortStrings (dedupStrs ((responses.filter (fun r => r.tool == t)).map
               (fun r => pyGetStrD r.output "status" "ok")))),
           some (entriesOf t responses)⟩) := by
  have hQ : ∀ r ∈ responses,
      (∃ s, entryStatus ⟨r.output, r.rationale⟩ = Val.s s) := fun r hr => h r hr
  have hsound := bucket_fold_sound (Q := fun e => ∃ s, entryStatus e = Val.s s)
    responses hQ [] (by simp)
  have hok : ∀ p ∈ bucketResponses responses, ∃ s, summarizeOutputs p.2 = .ok s := by
    intro p hp
    obtain ⟨hne, hall⟩ := hsound p hp
    exact ⟨_, summarizeOutputs_all_str p.2 hne hall⟩
  obtain ⟨out, hout, hlook⟩ := mapM_summaries (bucketResponses responses) hok
  refine ⟨⟨out, responses.map (·.output)⟩, ?_, rfl, ?_⟩
  · show (((bucketResponses responses).mapM
        (fun (kv : String × List BucketEntry) => do
          let s ← summarizeOutputs kv.2
          pure (kv.1, s)) : Except AggError (List (String × BucketSummary))).bind
        (fun summary => pure (SynthResult.mk summary (responses.map (·.output))))) = _
    rw [hout]
    rfl
  · intro t
    rw [hlook t]
    rw [show alGet t (bucketResponses responses) =
        optAppend (alGet t ([] : List (String × List BucketEntry))) (entriesOf t responses)
      from bucket_fold_lookup t responses []]
    by_cases he : (responses.filter (fun r => r.tool == t)) = []
    · simp [optAppend, entriesOf, he, alGet]
    · have hne : entriesOf t responses ≠ [] := by simp [entriesOf, he]
      have hfe : (responses.filter (fun r => r.tool == t)).isEmpty = false := by
        simpa [List.isEmpty_iff] using he
      rw [hfe]
      have hall : ∀ e ∈ entriesOf t responses, ∃ s, entryStatus e = Val.s s := by
        intro e hee
        unfold entriesOf at hee
        obtain ⟨r, hr, rfl⟩ := List.mem_map.mp hee
        exact h r (List.mem_of_mem_filter hr)
      have hsum := summarizeOutputs_all_str (entriesOf t responses) hne hall
      rw [show (alGet t ([] : List (String × List BucketEntry))) =
        (none : Option (List BucketEntry)) from rfl]
      rw [optAppend_none_ne _ hne]
      show (summarizeOutputs (entriesOf t responses)).toOption = _
      rw [hsum]
      simp only [entriesOf, List.map_map, Except.toOption]
      rfl

/-- A concrete response list for exercising the aggregator: two expense
responses with distinct statuses and one drive response with no status. -/
def c9Responses : List AgentResponse :=
  [⟨"expense_agent", [("status", Val.s "submitted")], "r1"⟩,
   ⟨"expense_agent", [("status", Val.s "ok")], "r2"⟩,
   ⟨"drive_agent", [], "r3"⟩]

theorem synthesize_groups_by_tool_witness :
    (∀ r ∈ c9Responses, ∃ s, pyGetD r.output "status" (Val.s "ok") = Val.s s) ∧
    (∃ res, ResponseAggregator.synthesize c9Responses = .ok res ∧
      res.raw = c9Responses.map (·.output) ∧
      ∀ t, alGet t res.summary =
        (if (c9Responses.filter (fun r => r.tool == t)).isEmpty then none
         else some ⟨String.intercalate " & "
             (sortStrings (dedupStrs ((c9Responses.filter (fun r => r.tool == t)).map
               (fun r => pyGetStrD r.output "status" "ok")))),
           some (entriesOf t c9Responses)⟩)) := by
  have hyp : ∀ r ∈ c9Responses, ∃ s, pyGetD r.output "status" (Val.s "ok") = Val.s s := by
    intro r hr
    rcases List.mem_cons.mp hr with rfl | hr
    · exact ⟨"submitted", rfl⟩
    rcases List.mem_cons.mp hr with rfl | hr
    · exact ⟨"ok", rfl⟩
    rcases List.mem_cons.mp hr with rfl | hr
    · exact ⟨"ok", rfl⟩
    cases hr
  exact ⟨hyp, synthesize_groups_by_tool c9Responses hyp⟩

/-! ## Claims about the orchestrator's plan execution -/

/-- C6: for every plan, a step whose dispatch raises aborts the whole
request at that step: the result is the step's error and the final state
is exactly what the completed prefix plus the failing dispatch left behind
— the steps after the failing one are never dispatched (the result does
not mention them) and nothing is rolled back. -/
theorem exec_plan_aborts_at_failure
    (f : SysState → String → PyDict → Except DispatchError PyDict × SysState)
    (role sid : String) (now : Int) (σ σ1 σ2 : SysState) (pre : List PlannedStep)
    (s : PlannedStep) (post : List PlannedStep) (resps : List AgentResponse)
    (e : DispatchError)
    (h1 : execPlan f role sid now σ pre = (.ok resps, σ1))
    (h2 : f { σ1 with anomaly := (σ1.anomaly.recordEvent now s.agent role sid).1 }
        s.agent (mkStepPayload s) = (.error e, σ2)) :
    execPlan f role sid now σ (pre ++ s :: post) = (.error e, σ2) := by
  induction pre generalizing σ resps with
  | nil =>
    simp only [execPlan, Prod.mk.injEq] at h1
    obtain ⟨-, rfl⟩ := h1
    simp only [List.nil_append, execPlan]
    rw [h2]
  | cons p ps ih =>
    simp only [List.cons_append, execPlan] at h1 ⊢
    cases hf : f { σ with anomaly := (σ.anomaly.recordEvent now p.agent role sid).1 }
        p.agent (mkStepPayload p) with
    | mk fe σ' =>
      rw [hf] at h1
      cases fe with
      | error e' =>
        have h1' : ((Except.error e' : Except DispatchError (List AgentResponse)), σ') =
            ((Except.ok resps : Except DispatchError (List AgentResponse)), σ1) := h1
        simp at h1'
      | ok out =>
        have h1' : stepResult p out (execPlan f role sid now σ' ps) =
            ((Except.ok resps : Except DispatchError (List AgentResponse)), σ1) := h1
        show stepResult p out (execPlan f role sid now σ' (ps ++ s :: post)) =
          ((Except.error e : Except DispatchError (List AgentResponse)), σ2)
        cases hrest : execPlan f role sid now σ' ps with
        | mk re σf =>
          rw [hrest] at h1'
          cases re with
          | error e' => simp [stepResult] at h1'
          | ok rs =>
            simp only [stepResult, Prod.mk.injEq, Except.ok.injEq] at h1'
            obtain ⟨-, rfl⟩ := h1'
            rw [ih σ' rs hrest]
            simp [stepResult]

/-- The orchestrator's dispatch closure over the real router, with the
employee role, session "sess-1" and clock 0. -/
def c6Dispatch (σ : SysState) (tool : String) (payload : PyDict) :
    Except DispatchError PyDict × SysState :=
  AgentRouter.dispatch σ 0 tool payload "employee"

def c6Submit : PlannedStep :=
  ⟨"expense_agent", "submit",
   [("report_id", Val.s "rpt-1"), ("employee_id", Val.s "emp-001"), ("amount", Val.n 50),
    ("currency", Val.s "USD"), ("category", Val.s "travel"),
    ("description", Val.s "Auto-submitted by planner")], "Submit expense report"⟩

def c6Review : PlannedStep :=
  ⟨"expense_agent", "review", [("report_id", Val.s "rpt-1")], "Policy-based automated review"⟩

def c6Issue : PlannedStep :=
  ⟨"expense_agent", "issue_reimbursement", [("report_id", Val.s "rpt-1")],
   "Issue reimbursement if approved"⟩

def c6Sigma0 : SysState := ⟨⟨[], initProfiles⟩, [], ⟨300, 10, []⟩⟩

def c6Report : ExpenseReport :=
  ⟨"emp-001", 50, "USD", "travel", "Auto-submitted by planner", "pending"⟩

def c6Sigma1 : SysState :=
  ⟨⟨[("rpt-1", c6Report)], initProfiles⟩, [],
   ⟨300, 10, [⟨0, "expense_agent", "employee", "sess-1"⟩]⟩⟩

def c6Sigma2 : SysState :=
  ⟨⟨[("rpt-1", c6Report)], initProfiles⟩, [],
   ⟨300, 10, [⟨0, "expense_agent", "employee", "sess-1"⟩,
              ⟨0, "expense_agent", "employee", "sess-1"⟩]⟩⟩

set_option maxRecDepth 100000 in
theorem exec_plan_aborts_at_failure_witness :
    (execPlan c6Dispatch "employee" "sess-1" 0 c6Sigma0 [c6Submit] =
      (.ok [⟨"expense_agent", [("status", Val.s "submitted"), ("report_id", Val.s "rpt-1")],
         "Submit expense report"⟩], c6Sigma1)) ∧
    (c6Dispatch
        { c6Sigma1 with
          anomaly := (c6Sigma1.anomaly.recordEvent 0 c6Review.agent "employee" "sess-1").1 }
        c6Review.agent (mkStepPayload c6Review) =
      (.error (.policy (.permissionError "Role employee not authorized for review")),
       c6Sigma2)) ∧
    (execPlan c6Dispatch "employee" "sess-1" 0 c6Sigma0 [c6Submit, c6Review, c6Issue] =
      (.error (.policy (.permissionError "Role employee not authorized for review")),
       c6Sigma2)) ∧
    (alGet "rpt-1" c6Sigma2.exp.expenses = some c6Report) := by
  have h1 : execPlan c6Dispatch "employee" "sess-1" 0 c6Sigma0 [c6Submit] =
      (.ok [⟨"expense_agent", [("status", Val.s "submitted"), ("report_id", Val.s "rpt-1")],
         "Submit expense report"⟩], c6Sigma1) := by
    rw [show execPlan c6Dispatch "employee" "sess-1" 0 c6Sigma0 [c6Submit] =
        (execPlan c6Dispatch "employee" "sess-1" 0 c6Sigma0 [c6Submit]) from rfl]
    rfl
  have h2 : c6Dispatch
      { c6Sigma1 with
        anomaly := (c6Sigma1.anomaly.recordEvent 0 c6Review.agent "employee" "sess-1").1 }
      c6Review.agent (mkStepPayload c6Review) =
    (.error (.policy (.permissionError "Role employee not authorized for review")),
     c6Sigma2) := by rfl
  exact ⟨h1, h2,
    exec_plan_aborts_at_failure c6Dispatch "employee" "sess-1" 0 c6Sigma0 c6Sigma1 c6Sigma2
      [c6Submit] c6Review [c6Issue] _ _ h1 h2, rfl⟩

end BlueTeam
